import Mathlib

/-!
Shallow embedding of `website/utils.py` from the ottertune repository
(`DataUtil`, `ConversionUtil`, `DBMSUtilImpl`, `PostgresUtilImpl`), together
with proofs of the specification claims about it.

Modelling conventions:
* Python strings are Lean `String`s; where character-level reasoning is
  needed (`ConversionUtil.get_raw_size`) we work on `List Char` (`String.data`).
* Python `dict`s are association lists (`List (String × α)`) with
  insertion-order iteration and insert-or-update write semantics
  (`dictInsert`), matching dict lookup/len/iteration behaviour.
* Python numbers are exact: `Int` for ints and `ℚ` for floats (the float
  values manipulated here are small integers and exact divisions).
* Fallible Python code returns `Except Err _`; each Python exception kind
  is a distinct `Err` constructor carrying the formatted message where the
  message matters.
-/

/-- Python exception kinds raised by the code under study. -/
inductive Err where
  | valueError (msg : String)
  | keyError (key : String)
  | indexError
  | typeError (msg : String)
  | assertionError (msg : String)
  | notImplementedError (msg : String)
  | zeroDivisionError
  | exception (msg : String)
deriving DecidableEq

deriving instance DecidableEq for Except

/-! ### Python `int()` / `str()` on decimal strings -/

/-- Numeric value of a decimal digit character. -/
def digitVal (c : Char) : Nat := c.toNat - '0'.toNat

/-- Value of a big-endian list of decimal digit characters. -/
def digitsVal (cs : List Char) : Nat := cs.foldl (fun acc c => 10 * acc + digitVal c) 0

/-- Parse a nonempty all-digit character list as a natural number. -/
def parseDigits (cs : List Char) : Option Nat :=
  if cs = [] then none
  else if cs.all Char.isDigit then some (digitsVal cs)
  else none

/-- Python `int(s)` on a string with an optional sign followed by digits.
(We do not model `int()`'s stripping of surrounding whitespace, which never
occurs in the values handled here.) -/
def pyInt (cs : List Char) : Option Int :=
  match cs with
  | [] => none
  | c :: rest =>
    if c = '-' then (parseDigits rest).map (fun n => -(n : Int))
    else if c = '+' then (parseDigits rest).map (fun n => (n : Int))
    else (parseDigits cs).map (fun n => (n : Int))

/-- Python `int(s)` on a Lean `String`. -/
def pyIntS (s : String) : Option Int := pyInt s.data

/-- Little-endian decimal digits of `n`, by structural recursion on a fuel
bound (`fuel ≥ n` suffices); agrees with `Nat.digits 10 n`. -/
def digitsLE : Nat → Nat → List Nat
  | 0, _ => []
  | fuel + 1, n => if n = 0 then [] else n % 10 :: digitsLE fuel (n / 10)

/-- Python `str(n)` for a nonnegative integer: its decimal digits,
most significant first. -/
def pyStr (n : Nat) : List Char :=
  if n = 0 then ['0'] else ((digitsLE n n).map Nat.digitChar).reverse

theorem digitsLE_eq (fuel : Nat) :
    ∀ n, n ≤ fuel → digitsLE fuel n = Nat.digits 10 n := by
  induction fuel with
  | zero =>
    intro n h
    interval_cases n
    simp [digitsLE]
  | succ fuel ih =>
    intro n h
    by_cases h0 : n = 0
    · subst h0; simp [digitsLE]
    · rw [digitsLE, if_neg h0,
        Nat.digits_def' (by norm_num : (1 : ℕ) < 10) (Nat.pos_of_ne_zero h0),
        ih (n / 10) (by omega)]

/-! ### Python `float()` on literal strings -/

/-- Unsigned part of a Python float literal: `digits [. digits] [e [sign] digits]`
with at least one mantissa digit.  (`inf`/`nan` spellings are not modelled;
they never occur in the inputs handled here.) -/
def parseUnsignedFloat (cs : List Char) : Option ℚ :=
  let ip := cs.takeWhile Char.isDigit
  let rest := cs.dropWhile Char.isDigit
  let core : Option (ℚ × List Char) :=
    match rest with
    | '.' :: rest2 =>
      let fp := rest2.takeWhile Char.isDigit
      let rest3 := rest2.dropWhile Char.isDigit
      if ip = [] ∧ fp = [] then none
      else some (((digitsVal ip : ℚ) + (digitsVal fp : ℚ) / ((10 : ℚ) ^ fp.length)), rest3)
    | _ => if ip = [] then none else some ((digitsVal ip : ℚ), rest)
  match core with
  | none => none
  | some (m, tail) =>
    match tail with
    | [] => some m
    | e :: etail =>
      if e = 'e' ∨ e = 'E' then
        match etail with
        | '-' :: ds => if ds ≠ [] ∧ ds.all Char.isDigit then some (m / (10 : ℚ) ^ digitsVal ds) else none
        | '+' :: ds => if ds ≠ [] ∧ ds.all Char.isDigit then some (m * (10 : ℚ) ^ digitsVal ds) else none
        | ds => if ds ≠ [] ∧ ds.all Char.isDigit then some (m * (10 : ℚ) ^ digitsVal ds) else none
      else none

/-- Python `float(s)`: optional sign, then an unsigned float literal. -/
def pyFloat (cs : List Char) : Option ℚ :=
  match cs with
  | '-' :: rest => (parseUnsignedFloat rest).map (fun q => -q)
  | '+' :: rest => parseUnsignedFloat rest
  | _ => parseUnsignedFloat cs

/-- Python `float(s)` on a Lean `String`. -/
def pyFloatS (s : String) : Option ℚ := pyFloat s.data

/-- Python `int(f)` on a float: truncation toward zero. -/
def ratTrunc (q : ℚ) : Int := Int.tdiv q.num q.den

/-! ### Python `dict` as an association list -/

/-- Python `d[k]` / `k in d` on a dict: value of the binding of `k`
(keys are unique in a dict, so this is the binding). -/
def pyLookup {β : Type} (d : List (String × β)) (k : String) : Option β :=
  match d with
  | [] => none
  | (a, b) :: rest => if k = a then some b else pyLookup rest k

/-- Python `d[k] = v` on a dict: update the value in place if the key is
present, else append the new binding. -/
def dictInsert {β : Type} (d : List (String × β)) (k : String) (v : β) : List (String × β) :=
  if (pyLookup d k).isSome then d.map (fun p => (p.1, if p.1 = k then v else p.2))
  else d ++ [(k, v)]

/-- Python `d.update(e)` on dicts: fold `dictInsert` over `e`'s bindings. -/
def dictUpdate {β : Type} (d e : List (String × β)) : List (String × β) :=
  e.foldl (fun acc p => dictInsert acc p.1 p.2) d

/-- Build a Python dict from a sequence of key/value pairs
(dict comprehension: later bindings overwrite earlier ones). -/
def pyDictOfList {β : Type} (l : List (String × β)) : List (String × β) :=
  dictUpdate [] l

/-- Value of the last binding of `k` in `l` (the binding a Python dict
built from `l` would hold). -/
def lookupLast {β : Type} (l : List (String × β)) (k : String) : Option β :=
  match l with
  | [] => none
  | (k0, v0) :: rest =>
    match lookupLast rest k with
    | some v => some v
    | none => if k0 = k then some v0 else none

/-! ### `ConversionUtil` (`website/utils.py`, `get_raw_size`) -/

/-- Python `value.endswith(suffix)` on character lists. -/
def listEndsWith (value suffix : List Char) : Bool :=
  decide (suffix.length ≤ value.length) &&
    decide (value.drop (value.length - suffix.length) = suffix)

/-- Model of `ConversionUtil.get_raw_size(value, system)`: scan the `(factor, suffix)`
pairs in order; on the first suffix match, the amount is `1` when the value is
the bare suffix, else `int(value[:-len(suffix)])` (a `ValueError` propagates);
the result is `amount * factor`.  `None` (modelled `Option.none`) when no
suffix matches. -/
def get_raw_size (value : List Char) (system : List (Int × List Char)) :
    Except Err (Option Int) :=
  match system with
  | [] => .ok none
  | (factor, suffix) :: rest =>
    if listEndsWith value suffix then
      if value.length = suffix.length then .ok (some (1 * factor))
      else
        -- the prefix is value[:-len(suffix)]; for an empty suffix Python's
        -- value[:-0] is the empty string
        match pyInt (if suffix.length = 0 then []
            else value.take (value.length - suffix.length)) with
        | some amount => .ok (some (amount * factor))
        | none => .error (.valueError (String.mk (if suffix.length = 0 then []
            else value.take (value.length - suffix.length))))
    else get_raw_size value rest


/-! ### Type tags and catalog descriptors (`website/types.py`, `website/models.py`) -/

/-- Modelled from the spec: `website/types.py` is not part of the sampled
source.  Variable-type tags are `BOOL`, `ENUM`, `INTEGER`, `REAL`, `STRING`,
`TIMESTAMP`; per the spec "any VarType value outside the enumerated set is a
fatal UnknownVariableType error", so out-of-set tags are represented by
`other`. -/
inductive VarType where
  | BOOL
  | ENUM
  | INTEGER
  | REAL
  | STRING
  | TIMESTAMP
  | other (tag : Nat)
deriving DecidableEq

/-- Modelled from the spec: knob unit tags (`website/types.py` is not in the
sampled source): `BYTES`, `MILLISECONDS`, and out-of-set tags (`other`),
which the Postgres integer fallback treats as "Unknown unit type". -/
inductive KnobUnitType where
  | BYTES
  | MILLISECONDS
  | other (tag : Nat)
deriving DecidableEq

/-- Modelled from the spec: metric-type tags (`website/types.py` is not in
the sampled source): `COUNTER`, `INFO`, and out-of-set tags (`other`). -/
inductive MetricType where
  | COUNTER
  | INFO
  | other (tag : Nat)
deriving DecidableEq

/-- Holds (`true`) when the vartype tag is one of the six enumerated ones. -/
def VarType.recognized : VarType → Bool
  | .other _ => false
  | _ => true

/-- Modelled from the spec: `BooleanType.TRUE` (the spec's §8 example maps
`"on"` to `1`). -/
def BooleanType.TRUE : ℚ := 1

/-- Modelled from the spec: `BooleanType.FALSE`. -/
def BooleanType.FALSE : ℚ := 0

/-- Rendering of a metric-type tag used in error messages. -/
def metricTypeMsg : MetricType → String
  | .COUNTER => "COUNTER"
  | .INFO => "INFO"
  | .other tag => toString tag

/-- Rendering of a knob-unit tag used in error messages. -/
def unitTypeMsg : KnobUnitType → String
  | .BYTES => "BYTES"
  | .MILLISECONDS => "MILLISECONDS"
  | .other tag => toString tag

/-- Modelled from the spec: the fields of a parameter descriptor read by
`website/utils.py` (`name`, `vartype`, `unit`, `enumvals`, `tunable`). -/
structure ParamInfo where
  name : String
  vartype : VarType
  unit : KnobUnitType
  enumvals : String
  tunable : Bool
deriving DecidableEq

/-- Modelled from the spec: the fields of a metric descriptor read by
`website/utils.py` (`name`, `metric_type`, `default`). -/
structure MetricInfo where
  name : String
  metric_type : MetricType
  default : String
deriving DecidableEq

/-- Python `s.lower()` (character-wise `Char.toLower`). -/
def lowercaseKey (s : String) : String := String.mk (s.data.map Char.toLower)

/-- The three diff records produced by `extract_valid_keys`
(`('miscapitalized_key', true_k, k, v)`, `('extra_key', None, k, v)`,
`('missing_key', name, None, None)`). -/
inductive VDiff (α : Type) where
  | miscapitalized (true_k given : String) (v : α)
  | extra (given : String) (v : α)
  | missing (canonical : String)
deriving DecidableEq

/-! ### `DBMSUtilImpl.extract_valid_keys` -/

/-- Model of `DBMSUtilImpl.extract_valid_keys(idict, official_config, default=None)`.
The catalog is passed as its `(name, declared default)` pairs — the only two
descriptor fields the function reads.  Python's `assert` statements are
modelled as `Err.assertionError`. -/
def extract_valid_keys {α : Type} (idict : List (String × α))
    (official_config : List (String × α)) (default : Option α) :
    Except Err (List (String × α) × List (VDiff α)) :=
  let lowercase_dict : List (String × (String × α)) :=
    official_config.foldl (fun d p => dictInsert d (lowercaseKey p.1) p) []
  let firstPass := idict.foldl (fun (acc : List (String × α) × List (VDiff α)) kv =>
    match pyLookup lowercase_dict (lowercaseKey kv.1) with
    | some entry =>
      (dictInsert acc.1 entry.1 kv.2,
       if kv.1 ≠ entry.1 then acc.2 ++ [VDiff.miscapitalized entry.1 kv.1 kv.2] else acc.2)
    | none => (acc.1, acc.2 ++ [VDiff.extra kv.1 kv.2])) ([], [])
  let checked : Except Err (List (String × α) × List (VDiff α)) :=
    if idict.length > lowercase_dict.length then
      if firstPass.2.length > 0 then .ok firstPass
      else .error (.assertionError "len(diffs) > 0")
    else if idict.length < lowercase_dict.length then
      let lowercase_idict := idict.foldl (fun d p => dictInsert d (lowercaseKey p.1) p.2) []
      .ok (lowercase_dict.foldl (fun acc p =>
        if (pyLookup lowercase_idict p.1).isSome then acc
        else (dictInsert acc.1 p.2.1 (default.getD p.2.2),
              acc.2 ++ [VDiff.missing p.2.1])) firstPass)
    else .ok firstPass
  match checked with
  | .error e => .error e
  | .ok (valid_dict, diffs) =>
    if valid_dict.length = official_config.length then .ok (valid_dict, diffs)
    else .error (.assertionError "len(valid_dict) == len(official_config)")

/-! ### `DBMSUtilImpl` per-vartype value preprocessing -/

/-- Model of `DBMSUtilImpl.preprocess_bool`: case-insensitive comparison with `'on'`. -/
def base_preprocess_bool (bool_value : String) (_ : ParamInfo) : Except Err (Option ℚ) :=
  .ok (some (if lowercaseKey bool_value = "on" then BooleanType.TRUE else BooleanType.FALSE))

/-- Model of `DBMSUtilImpl.preprocess_enum`: zero-based index of the value in the
comma-split enum domain; `list.index`'s `ValueError` is re-raised as the
"Invalid enum value" exception. -/
def base_preprocess_enum (enum_value : String) (param_info : ParamInfo) : Except Err (Option ℚ) :=
  let enumvals := param_info.enumvals.splitOn ","
  match enumvals.indexOf? enum_value with
  | some i => .ok (some (i : ℚ))
  | none => .error (.exception
      ("Invalid enum value for param " ++ param_info.name ++ " (" ++ enum_value ++ ")"))

/-- Model of `DBMSUtilImpl.preprocess_integer`: `int(v)`, falling back to
`int(float(v))`; the `ValueError` from a failed `float` parse propagates. -/
def base_preprocess_integer (int_value : String) : Except Err Int :=
  match pyIntS int_value with
  | some n => .ok n
  | none =>
    match pyFloatS int_value with
    | some q => .ok (ratTrunc q)
    | none => .error (.valueError int_value)

/-- Model of `DBMSUtilImpl.preprocess_integer` as a method value (never `None`). -/
def base_preprocess_integerM (int_value : String) (_ : ParamInfo) : Except Err (Option ℚ) :=
  match base_preprocess_integer int_value with
  | .ok n => .ok (some (n : ℚ))
  | .error e => .error e

/-- Model of `DBMSUtilImpl.preprocess_real`: `float(v)`. -/
def base_preprocess_real (real_value : String) (_ : ParamInfo) : Except Err (Option ℚ) :=
  match pyFloatS real_value with
  | some q => .ok (some q)
  | none => .error (.valueError real_value)

/-- The method `DBMSUtilImpl.preprocess_string` is abstract with body `pass`: invoking
it on a (hypothetical) base instance returns Python `None`. -/
def base_preprocess_string (_ : String) (_ : ParamInfo) : Except Err (Option ℚ) :=
  .ok none

/-- Model of `DBMSUtilImpl.preprocess_timestamp`: `raise NotImplementedError`. -/
def base_preprocess_timestamp (_ : String) (_ : ParamInfo) : Except Err (Option ℚ) :=
  .error (.notImplementedError "Implement me!")

/-- The overridable per-vartype methods of a `DBMSUtilImpl` instance.  Each
returns `Option ℚ` because a Python method can return `None` (which
`preprocess_dbms_params` checks for explicitly). -/
structure DBMSClass where
  preprocess_bool : String → ParamInfo → Except Err (Option ℚ)
  preprocess_enum : String → ParamInfo → Except Err (Option ℚ)
  preprocess_integer : String → ParamInfo → Except Err (Option ℚ)
  preprocess_real : String → ParamInfo → Except Err (Option ℚ)
  preprocess_string : String → ParamInfo → Except Err (Option ℚ)
  preprocess_timestamp : String → ParamInfo → Except Err (Option ℚ)

/-- The base class `DBMSUtilImpl`'s method table. -/
def baseClass : DBMSClass :=
  ⟨base_preprocess_bool, base_preprocess_enum, base_preprocess_integerM,
   base_preprocess_real, base_preprocess_string, base_preprocess_timestamp⟩

/-- The `if/elif` vartype dispatch chain of `preprocess_dbms_params`:
out-of-set tags hit the final `else: raise  Unknown variable type`. -/
def dispatchVar (c : DBMSClass) (vt : VarType) (pvalue : String) (pinfo : ParamInfo) :
    Except Err (Option ℚ) :=
  match vt with
  | .BOOL => c.preprocess_bool pvalue pinfo
  | .ENUM => c.preprocess_enum pvalue pinfo
  | .INTEGER => c.preprocess_integer pvalue pinfo
  | .REAL => c.preprocess_real pvalue pinfo
  | .STRING => c.preprocess_string pvalue pinfo
  | .TIMESTAMP => c.preprocess_timestamp pvalue pinfo
  | .other tag => .error (.exception ("Unknown variable type: " ++ toString tag))

/-- One iteration of the `preprocess_dbms_params` catalog loop: tunability
assertion, raw lookup (`KeyError` when absent), vartype dispatch, `None`
check, then `param_data[pinfo.name] = prep_value`. -/
def paramsStep (c : DBMSClass) (tunable_params : List (String × String))
    (d : List (String × ℚ)) (pinfo : ParamInfo) : Except Err (List (String × ℚ)) :=
  if pinfo.tunable = true then
    match pyLookup tunable_params pinfo.name with
    | none => .error (.keyError pinfo.name)
    | some pvalue =>
      match dispatchVar c pinfo.vartype pvalue pinfo with
      | .error e => .error e
      | .ok none => .error (.exception ("Param value for " ++ pinfo.name ++ " cannot be null"))
      | .ok (some v) => .ok (dictInsert d pinfo.name v)
  else .error (.assertionError
      ("All tunable_params should be tunable (" ++ pinfo.name ++ " is not)"))

/-- Model of `DBMSUtilImpl.preprocess_dbms_params(tunable_params, tunable_param_catalog)`:
fold of `paramsStep` over the catalog, starting from the empty dict. -/
def preprocess_dbms_params (c : DBMSClass) (tunable_params : List (String × String))
    (tunable_param_catalog : List ParamInfo) : Except Err (List (String × ℚ)) :=
  tunable_param_catalog.foldlM (paramsStep c tunable_params) []

/-- One iteration of the `preprocess_dbms_metrics` catalog loop: the
non-`INFO` assertion, raw lookup, and the `COUNTER` branch dividing the
parsed integer by the execution time (`ZeroDivisionError` when it is zero). -/
def metricsStep (ppInt : String → Except Err Int) (numeric_metrics : List (String × String))
    (execution_time : ℚ) (d : List (String × ℚ)) (minfo : MetricInfo) :
    Except Err (List (String × ℚ)) :=
  if minfo.metric_type = .INFO then
    .error (.assertionError "minfo.metric_type != MetricType.INFO")
  else
    match pyLookup numeric_metrics minfo.name with
    | none => .error (.keyError minfo.name)
    | some mvalue =>
      if minfo.metric_type = .COUNTER then
        match ppInt mvalue with
        | .error e => .error e
        | .ok converted =>
          if execution_time = 0 then .error .zeroDivisionError
          else .ok (dictInsert d minfo.name ((converted : ℚ) / execution_time))
      else .error (.exception ("Unknown metric type: " ++ metricTypeMsg minfo.metric_type))

/-- Model of `DBMSUtilImpl.preprocess_dbms_metrics(numeric_metrics,
numeric_metric_catalog, external_metrics, execution_time)`.  `ppInt` is the
instance's `self.preprocess_integer` applied to the raw value (the base
implementation ignores its descriptor argument). -/
def preprocess_dbms_metrics (ppInt : String → Except Err Int)
    (numeric_metrics : List (String × String)) (numeric_metric_catalog : List MetricInfo)
    (external_metrics : List (String × ℚ)) (execution_time : ℚ) :
    Except Err (List (String × ℚ)) :=
  if numeric_metrics.length ≠ numeric_metric_catalog.length then
    .error (.exception "The number of metrics should be equal!")
  else
    match numeric_metric_catalog.foldlM (metricsStep ppInt numeric_metrics execution_time) [] with
    | .error e => .error e
    | .ok metric_data => .ok (dictUpdate metric_data (pyDictOfList external_metrics))

/-! ### `PostgresUtilImpl` -/

/-- Model of `PostgresUtilImpl.POSTGRES_BYTES_SYSTEM`. -/
def POSTGRES_BYTES_SYSTEM : List (Int × List Char) :=
  [(1024 ^ 5, ['P', 'B']), (1024 ^ 4, ['T', 'B']), (1024 ^ 3, ['G', 'B']),
   (1024 ^ 2, ['M', 'B']), (1024 ^ 1, ['k', 'B']), (1024 ^ 0, ['B'])]

/-- Model of `PostgresUtilImpl.POSTGRES_TIME_SYSTEM` (declared order `d,h,min,ms,s`). -/
def POSTGRES_TIME_SYSTEM : List (Int × List Char) :=
  [(1000 * 60 * 60 * 24, ['d']), (1000 * 60 * 60, ['h']), (1000 * 60, ['m', 'i', 'n']),
   (1, ['m', 's']), (1000, ['s'])]

/-- Model of `PostgresUtilImpl.preprocess_integer`: try the base parse; on its
`ValueError` consult the byte or time conversion system selected by the
descriptor's `unit` (any other unit raises "Unknown unit type"); a `None`
result raises "Invalid integer format". -/
def postgres_preprocess_integer (int_value : String) (param_info : ParamInfo) :
    Except Err Int :=
  let attempt : Except Err (Option Int) :=
    match base_preprocess_integer int_value with
    | .ok n => .ok (some n)
    | .error (.valueError _) =>
      if param_info.unit = .BYTES then
        get_raw_size int_value.data POSTGRES_BYTES_SYSTEM
      else if param_info.unit = .MILLISECONDS then
        get_raw_size int_value.data POSTGRES_TIME_SYSTEM
      else .error (.exception ("Unknown unit type: " ++ unitTypeMsg param_info.unit))
    | .error e => .error e
  match attempt with
  | .error e => .error e
  | .ok none => .error (.exception
      ("Invalid integer format for param " ++ param_info.name ++ " (" ++ int_value ++ ")"))
  | .ok (some n) => .ok n

/-- Model of `PostgresUtilImpl.preprocess_string`: `raise Exception` always. -/
def postgres_preprocess_string (_ : String) (_ : ParamInfo) : Except Err (Option ℚ) :=
  .error (.exception "Implement me!")

/-- The `PostgresUtilImpl` method table: the base class with `preprocess_integer`
and `preprocess_string` overridden. -/
def postgresClass : DBMSClass :=
  ⟨base_preprocess_bool, base_preprocess_enum,
   fun v p =>
     match postgres_preprocess_integer v p with
     | .ok n => .ok (some (n : ℚ))
     | .error e => .error e,
   base_preprocess_real, postgres_preprocess_string, base_preprocess_timestamp⟩

/-! ### `PostgresUtilImpl.parse_dbms_metrics` -/

/-- A Python value as it flows through `parse_dbms_metrics`: a raw metric
string (possibly `None` inside collected lists), an `int`, or a list of
collected raw values. -/
inductive PyObj where
  | pstr (s : String)
  | pint (n : Int)
  | pnone
  | plist (l : List (Option String))
deriving DecidableEq

/-- Python `len` on the values reachable in `parse_dbms_metrics`
(`None`/`int` have no length — `TypeError`). -/
def pyLen : PyObj → Option Nat
  | .pstr s => some s.length
  | .plist l => some l.length
  | _ => none

/-- Python `mvalues[0]` on the values reachable in `parse_dbms_metrics`. -/
def pyIndex0 : PyObj → Except Err PyObj
  | .pstr s =>
    match s.data with
    | [] => .error .indexError
    | c :: _ => .ok (.pstr (String.mk [c]))
  | .plist [] => .error .indexError
  | .plist (v :: _) =>
    .ok (match v with | some s => .pstr s | none => .pnone)
  | _ => .error (.typeError "not subscriptable")

/-- Python iteration over the values reachable in `parse_dbms_metrics`
(iterating a string yields its one-character strings). -/
def pyIterOptStr : PyObj → Except Err (List (Option String))
  | .plist l => .ok l
  | .pstr s => .ok (s.data.map (fun c => some (String.mk [c])))
  | _ => .error (.typeError "not iterable")

/-- Python `valid_metrics[key].append(mvalue)` with `[]` initialization on a
missing key. -/
def dictAppend (d : List (String × List (Option String))) (k : String) (v : Option String) :
    List (String × List (Option String)) :=
  match pyLookup d k with
  | some l => dictInsert d k (l ++ [v])
  | none => dictInsert d k [v]

/-- The flattening loop of `PostgresUtilImpl.parse_dbms_metrics`: every
`(view, entries)` scope contributes `"<view>.<metric>"` keys, collecting
repeated values into lists. -/
def collectScoped (metrics : List (String × List (List (String × Option String)))) :
    List (String × List (Option String)) :=
  metrics.foldl (fun acc vp =>
    vp.2.foldl (fun acc entry =>
      entry.foldl (fun acc mp => dictAppend acc (vp.1 ++ "." ++ mp.1) mp.2) acc) acc) []

/-- The per-key combination policy of `parse_dbms_metrics`: `INFO` or a
single collected value → the sole value verbatim; `COUNTER` with several
values → the stringified sum of the non-`None` values parsed as ints (`0`
when all are `None`); anything else → "Invalid metric type". -/
def combineStep (official_metric_map : List (String × MetricInfo)) (mname : String)
    (mv : PyObj) : Except Err PyObj :=
  match pyLookup official_metric_map mname with
  | none => .error (.keyError mname)
  | some metric =>
    if metric.metric_type = .INFO then pyIndex0 mv
    else
      match pyLen mv with
      | none => .error (.typeError "object of this type has no len()")
      | some n =>
        if n = 1 then pyIndex0 mv
        else if metric.metric_type = .COUNTER then
          match pyIterOptStr mv with
          | .error e => .error e
          | .ok vals =>
            match (vals.filterMap id).mapM pyIntS with
            | none => .error (.valueError "invalid literal for int()")
            | some ints =>
              if ints.length = 0 then .ok (.pint 0)
              else .ok (.pstr (toString ints.sum))
        else .error (.exception ("Invalid metric type: " ++ metricTypeMsg metric.metric_type))

/-- Model of `PostgresUtilImpl.parse_dbms_metrics(metrics, official_metrics)`:
flatten the scoped raw metrics, reconcile via `extract_valid_keys` with
default `'0'`, then combine each key's values per `combineStep`. -/
def postgres_parse_dbms_metrics
    (metrics : List (String × List (List (String × Option String))))
    (official_metrics : List MetricInfo) :
    Except Err (List (String × PyObj) × List (VDiff PyObj)) :=
  let collected := collectScoped metrics
  let official_metric_map := official_metrics.foldl (fun d m => dictInsert d m.name m) []
  match extract_valid_keys (collected.map (fun p => (p.1, PyObj.plist p.2)))
      (official_metrics.map (fun m => (m.name, PyObj.pstr m.default)))
      (some (PyObj.pstr "0")) with
  | .error e => .error e
  | .ok (valid_metrics, diffs) =>
    match valid_metrics.mapM (fun p =>
        (match combineStep official_metric_map p.1 p.2 with
         | .error e => .error e
         | .ok v => .ok (p.1, v) : Except Err (String × PyObj))) with
    | .error e => .error e
    | .ok combined => .ok (combined, diffs)

/-! ### `DataUtil.combine_duplicate_rows` -/

/-- Lexicographic `≤` on parameter rows — the row order `np.unique(..., axis=0)`
sorts by. -/
def rowLe : List ℚ → List ℚ → Bool
  | [], _ => true
  | _ :: _, [] => false
  | a :: as, b :: bs => if a < b then true else if b < a then false else rowLe as bs

/-- The relation form of `rowLe`. -/
def rowLeP (a b : List ℚ) : Prop := rowLe a b = true

instance : DecidableRel rowLeP :=
  fun a b => inferInstanceAs (Decidable (rowLe a b = true))

/-- The distinct rows of `X` in ascending lexicographic order — the
`X_unique` of `np.unique(X, axis=0)`. -/
def uniqueRows (X : List (List ℚ)) : List (List ℚ) :=
  List.insertionSort rowLeP X.dedup

/-- Indices of the occurrences of row `r` in `X`, ascending — the
`ix[invs == i]` of `combine_duplicate_rows`. -/
def occIdxs (X : List (List ℚ)) (r : List ℚ) : List Nat :=
  (List.range X.length).filter (fun i => decide (X.getD i [] = r))

/-- Model of `np.median` on a list of rationals: middle element of the sorted list,
or the mean of the two middle elements for even length.  (Not reached on the
empty list in this code.) -/
def medianQ (l : List ℚ) : ℚ :=
  let s := List.insertionSort (fun a b : ℚ => a ≤ b) l
  if s.length % 2 = 1 then s.getD (s.length / 2) 0
  else (s.getD (s.length / 2 - 1) 0 + s.getD (s.length / 2) 0) / 2

/-- Model of `np.median(rows, axis=0)` for a list of rows of width `w`. -/
def medianCols (rows : List (List ℚ)) (w : Nat) : List ℚ :=
  (List.range w).map (fun j => medianQ (rows.map (fun row => row.getD j 0)))

/-- Model of `DataUtil.combine_duplicate_rows(X_matrix, y_matrix, rowlabels)`.  When
every row of `X` is distinct the inputs are returned unchanged (labels still
the plain `List Int`, tagged `Sum.inl`); otherwise, per distinct row of `X`
(in `np.unique`'s sorted order): a unique occurrence passes its `y` row
through and wraps its label in a 1-tuple, a repeated row takes the
column-wise median of its occurrences' `y` rows and the tuple of their
labels (tagged `Sum.inr`). -/
def combine_duplicate_rows (X_matrix y_matrix : List (List ℚ)) (rowlabels : List Int) :
    List (List ℚ) × List (List ℚ) × (List Int ⊕ List (List Int)) :=
  let X_unique := uniqueRows X_matrix
  if X_unique.length = X_matrix.length then
    (X_matrix, y_matrix, Sum.inl rowlabels)
  else
    let w := (y_matrix.headD []).length
    let y_unique := X_unique.map (fun r =>
      let occ := occIdxs X_matrix r
      if occ.length = 1 then y_matrix.getD (occ.headD 0) []
      else medianCols (occ.map (fun j => y_matrix.getD j [])) w)
    let rowlabels_unique := X_unique.map (fun r =>
      let occ := occIdxs X_matrix r
      if occ.length = 1 then [rowlabels.getD (occ.headD 0) 0]
      else occ.map (fun j => rowlabels.getD j 0))
    (X_unique, y_unique, Sum.inr rowlabels_unique)

theorem pyLookup_mapUpdate_self {β : Type} (v : β) :
    ∀ (d : List (String × β)) (k : String), (pyLookup d k).isSome →
      pyLookup (d.map (fun p => (p.1, if p.1 = k then v else p.2))) k = some v
  | [], k, h => by simp [pyLookup] at h
  | (a, b) :: rest, k, h => by
    by_cases hak : a = k
    · subst hak
      simp [pyLookup]
    · have h' : (pyLookup rest k).isSome := by
        simpa [pyLookup, hak, Ne.symm hak] using h
      simp [pyLookup, hak, Ne.symm hak, pyLookup_mapUpdate_self v rest k h']

theorem pyLookup_mapUpdate_ne {β : Type} (v : β) (k k' : String) (hk : k' ≠ k) :
    ∀ (d : List (String × β)),
      pyLookup (d.map (fun p => (p.1, if p.1 = k then v else p.2))) k' = pyLookup d k'
  | [] => rfl
  | (a, b) :: rest => by
    by_cases hk'a : k' = a
    · subst hk'a
      simp [pyLookup, hk]
    · simp [pyLookup, hk'a, pyLookup_mapUpdate_ne v _ _ hk rest]

theorem pyLookup_append_of_isSome {β : Type} (k : String) :
    ∀ (d e : List (String × β)), (pyLookup d k).isSome →
      pyLookup (d ++ e) k = pyLookup d k
  | [], _, h => by simp [pyLookup] at h
  | (a, b) :: rest, e, h => by
    by_cases hka : k = a
    · simp [pyLookup, hka]
    · have h' : (pyLookup rest k).isSome := by simpa [pyLookup, hka] using h
      simp [pyLookup, hka, pyLookup_append_of_isSome k rest e h']

theorem pyLookup_append_of_none {β : Type} (k : String) :
    ∀ (d e : List (String × β)), pyLookup d k = none →
      pyLookup (d ++ e) k = pyLookup e k
  | [], _, _ => rfl
  | (a, b) :: rest, e, h => by
    have hka : ¬ k = a := by
      intro hh
      simp [pyLookup, hh] at h
    have h' : pyLookup rest k = none := by simpa [pyLookup, hka] using h
    simp [pyLookup, hka, pyLookup_append_of_none k rest e h']

/-- The single dict-write lemma: after `d[k] = v`, looking up `k'` gives `v`
when `k' = k` and is unchanged otherwise. -/
theorem pyLookup_dictInsert {β : Type} (d : List (String × β)) (k k' : String) (v : β) :
    pyLookup (dictInsert d k v) k' = if k' = k then some v else pyLookup d k' := by
  unfold dictInsert
  by_cases hpres : (pyLookup d k).isSome
  · simp only [hpres, if_true]
    by_cases hk : k' = k
    · subst hk
      simp [pyLookup_mapUpdate_self v d k' hpres]
    · simp [hk, pyLookup_mapUpdate_ne v k k' hk d]
  · simp only [hpres, if_false]
    have hnone : pyLookup d k = none := by
      cases hx : pyLookup d k with
      | none => rfl
      | some w => exact absurd (by simp [hx]) hpres
    by_cases hk : k' = k
    · subst hk
      simp [pyLookup_append_of_none k' d [(k', v)] hnone, pyLookup]
    · by_cases hfound : (pyLookup d k').isSome
      · simp [hk, pyLookup_append_of_isSome k' d [(k, v)] hfound]
      · have hnone' : pyLookup d k' = none := by
          cases hx : pyLookup d k' with
          | none => rfl
          | some w => exact absurd (by simp [hx]) hfound
        simp [hk, pyLookup_append_of_none k' d [(k, v)] hnone', pyLookup, hk, hnone']

theorem pyLookup_eq_none_iff {β : Type} (k : String) :
    ∀ (d : List (String × β)), pyLookup d k = none ↔ k ∉ d.map Prod.fst
  | [] => by simp [pyLookup]
  | (a, b) :: rest => by
    by_cases hka : k = a
    · simp [pyLookup, hka]
    · simp [pyLookup, hka, pyLookup_eq_none_iff k rest]

theorem dictInsert_fst_of_isSome {β : Type} (d : List (String × β)) (k : String) (v : β)
    (h : (pyLookup d k).isSome) :
    (dictInsert d k v).map Prod.fst = d.map Prod.fst := by
  simp only [dictInsert, h, if_true, List.map_map]
  rfl

theorem dictInsert_fst_of_none {β : Type} (d : List (String × β)) (k : String) (v : β)
    (h : pyLookup d k = none) :
    (dictInsert d k v).map Prod.fst = d.map Prod.fst ++ [k] := by
  simp [dictInsert, h]

theorem dictInsert_length {β : Type} (d : List (String × β)) (k : String) (v : β) :
    (dictInsert d k v).length =
      if (pyLookup d k).isSome then d.length else d.length + 1 := by
  by_cases h : (pyLookup d k).isSome <;> simp [dictInsert, h]

theorem nodup_fst_dictInsert {β : Type} (d : List (String × β)) (k : String) (v : β)
    (h : (d.map Prod.fst).Nodup) : ((dictInsert d k v).map Prod.fst).Nodup := by
  by_cases hp : (pyLookup d k).isSome
  · rw [dictInsert_fst_of_isSome d k v hp]
    exact h
  · have hnone : pyLookup d k = none := by
      cases hx : pyLookup d k with
      | none => rfl
      | some w => exact absurd (by simp [hx]) hp
    rw [dictInsert_fst_of_none d k v hnone]
    have hk : k ∉ d.map Prod.fst := (pyLookup_eq_none_iff k d).mp hnone
    simp [List.nodup_append, h, hk]

theorem pyLookup_dictUpdate {β : Type} (e : List (String × β)) :
    ∀ (d : List (String × β)) (k : String),
      pyLookup (dictUpdate d e) k =
        match lookupLast e k with
        | some v => some v
        | none => pyLookup d k := by
  induction e with
  | nil => intro d k; rfl
  | cons p rest ih =>
    intro d k
    obtain ⟨k0, v0⟩ := p
    show pyLookup (dictUpdate (dictInsert d k0 v0) rest) k = _
    rw [ih]
    cases hrest : lookupLast rest k with
    | some v => simp [lookupLast, hrest]
    | none =>
      simp only [lookupLast, hrest]
      rw [pyLookup_dictInsert]
      by_cases hk : k = k0
      · simp [hk]
      · simp [hk, Ne.symm hk]

theorem nodup_fst_dictUpdate {β : Type} (e : List (String × β)) :
    ∀ (d : List (String × β)), (d.map Prod.fst).Nodup →
      ((dictUpdate d e).map Prod.fst).Nodup := by
  induction e with
  | nil => intro d h; exact h
  | cons p rest ih =>
    intro d h
    exact ih (dictInsert d p.1 p.2) (nodup_fst_dictInsert d p.1 p.2 h)

theorem lookupLast_eq_pyLookup_of_nodup {β : Type} (k : String) :
    ∀ (d : List (String × β)), (d.map Prod.fst).Nodup →
      lookupLast d k = pyLookup d k
  | [], _ => rfl
  | (a, b) :: rest, h => by
    have hrest : (rest.map Prod.fst).Nodup := (List.nodup_cons.mp h).2
    have hamem : a ∉ rest.map Prod.fst := (List.nodup_cons.mp h).1
    rw [show lookupLast ((a, b) :: rest) k =
        (match lookupLast rest k with
         | some v => some v
         | none => if a = k then some b else none) from rfl]
    rw [lookupLast_eq_pyLookup_of_nodup k rest hrest]
    by_cases hka : k = a
    · subst hka
      have : pyLookup rest k = none := (pyLookup_eq_none_iff k rest).mpr hamem
      simp [this, pyLookup]
    · cases hx : pyLookup rest k with
      | some v => simp [pyLookup, hka, hx]
      | none => simp [pyLookup, hka, hx, Ne.symm hka]

/-! ### Decimal round-trip: `int(str(n)) = n` -/

theorem digitVal_digitChar (d : Nat) (h : d < 10) : digitVal (Nat.digitChar d) = d := by
  interval_cases d <;> rfl

theorem isDigit_digitChar (d : Nat) (h : d < 10) : (Nat.digitChar d).isDigit = true := by
  interval_cases d <;> rfl

theorem foldr_digits_eq (n : Nat) :
    (Nat.digits 10 n).foldr (fun d acc => 10 * acc + d) 0 = n := by
  induction n using Nat.strong_induction_on with
  | _ n ih =>
    rcases Nat.eq_zero_or_pos n with h0 | hpos
    · subst h0; simp
    · rw [Nat.digits_def' (by norm_num : (1 : ℕ) < 10) hpos]
      simp only [List.foldr_cons]
      rw [ih (n / 10) (Nat.div_lt_self hpos (by norm_num))]
      omega

theorem foldr_map_digitChar (L : List Nat) (h : ∀ d ∈ L, d < 10) :
    (L.map Nat.digitChar).foldr (fun c acc => 10 * acc + digitVal c) 0 =
      L.foldr (fun d acc => 10 * acc + d) 0 := by
  induction L with
  | nil => rfl
  | cons d rest ih =>
    simp only [List.map_cons, List.foldr_cons]
    rw [ih (fun x hx => h x (List.mem_cons_of_mem d hx)),
      digitVal_digitChar d (h d (List.mem_cons_self d rest))]

theorem digitsVal_pyStr (n : Nat) : digitsVal (pyStr n) = n := by
  rcases Nat.eq_zero_or_pos n with h0 | hpos
  · subst h0; rfl
  · have hne : n ≠ 0 := Nat.pos_iff_ne_zero.mp hpos
    rw [pyStr, if_neg hne, digitsLE_eq n n le_rfl, digitsVal, List.foldl_reverse]
    have hlt : ∀ d ∈ Nat.digits 10 n, d < 10 := fun d hd =>
      Nat.digits_lt_base (by norm_num) hd
    rw [foldr_map_digitChar _ hlt, foldr_digits_eq n]

theorem pyStr_ne_nil (n : Nat) : pyStr n ≠ [] := by
  rcases Nat.eq_zero_or_pos n with h0 | hpos
  · subst h0; simp [pyStr]
  · have hne : n ≠ 0 := Nat.pos_iff_ne_zero.mp hpos
    rw [pyStr, if_neg hne, digitsLE_eq n n le_rfl]
    simp [Nat.digits_ne_nil_iff_ne_zero, hne]

theorem pyStr_all_digit (n : Nat) : ∀ c ∈ pyStr n, c.isDigit = true := by
  rcases Nat.eq_zero_or_pos n with h0 | hpos
  · subst h0; intro c hc; simp [pyStr] at hc; subst hc; rfl
  · have hne : n ≠ 0 := Nat.pos_iff_ne_zero.mp hpos
    rw [pyStr, if_neg hne, digitsLE_eq n n le_rfl]
    intro c hc
    rw [List.mem_reverse] at hc
    obtain ⟨d, hd, rfl⟩ := List.mem_map.mp hc
    exact isDigit_digitChar d (Nat.digits_lt_base (by norm_num) hd)

theorem parseDigits_pyStr (n : Nat) : parseDigits (pyStr n) = some n := by
  rw [parseDigits, if_neg (pyStr_ne_nil n)]
  rw [if_pos (List.all_eq_true.mpr (fun c hc => pyStr_all_digit n c hc)), digitsVal_pyStr]

theorem pyInt_pyStr (n : Nat) : pyInt (pyStr n) = some (n : Int) := by
  cases hps : pyStr n with
  | nil => exact absurd hps (pyStr_ne_nil n)
  | cons c rest =>
    have hc : c.isDigit = true := pyStr_all_digit n c (hps ▸ List.mem_cons_self c rest)
    have hcm : c ≠ '-' := by
      intro hh; subst hh; exact absurd hc (by decide)
    have hcp : c ≠ '+' := by
      intro hh; subst hh; exact absurd hc (by decide)
    rw [pyInt, if_neg hcm, if_neg hcp, ← hps, parseDigits_pyStr]
    rfl

theorem listEndsWith_append_self (a b : List Char) : listEndsWith (a ++ b) b = true := by
  simp [listEndsWith, List.length_append, List.drop_left]

/-! ### Claim C1 -/

/-- C1: the claim is refuted by the code as written — on input `{"b": "x"}`
with the one-entry catalog `[("a", "d")]` (equal sizes, one extra key and one
missing key), the canonical name `"a"` absent from the lowercased input key
set is never filled with the default, because the filling branch requires
`len(idict) < len(official_config)`; the function instead fails its own size
assertion `len(valid_dict) == len(official_config)` rather than returning a
complete mapping. -/
theorem C1_extract_valid_keys_assertion_failure :
    extract_valid_keys [("b", "x")] [("a", "d")] none =
      .error (.assertionError "len(valid_dict) == len(official_config)") := by
  decide

/-! ### Claim C2 -/

/-- C2 counterexample: the system `[(2, "0B"), (1, "B")]` is ordered from
largest factor to smallest and contains the pair `(1, "B")`; for amount `10`
the claim demands `get_raw_size("10B") = 10 * 1`, but the scan matches the
earlier suffix `"0B"` first and returns `1 * 2 = 2`. -/
theorem C2_get_raw_size_counterexample :
    ([((2 : Int), ['0', 'B']), ((1 : Int), ['B'])].Pairwise
      (fun p q : Int × List Char => q.1 ≤ p.1)) ∧
    [((2 : Int), ['0', 'B']), ((1 : Int), ['B'])][1]? = some ((1 : Int), ['B']) ∧
    0 < 10 ∧
    get_raw_size (pyStr 10 ++ ['B']) [((2 : Int), ['0', 'B']), ((1 : Int), ['B'])] =
      .ok (some 2) ∧
    (2 : Int) ≠ (10 : Int) * 1 := by
  decide

/-- C2 (amended): for every conversion system ordered from largest factor to
smallest, every `(factor, suffix)` pair in it with a nonempty suffix, and
every positive integer amount, `get_raw_size(str(amount) + suffix)` returns
`amount * factor` *provided no earlier pair's suffix is a trailing substring
of `str(amount) + suffix`*. -/
theorem C2_get_raw_size_amended (system : List (Int × List Char)) (factor : Int)
    (suffix : List Char) (amount i : Nat)
    (hord : system.Pairwise (fun p q => q.1 ≤ p.1))
    (hpos : 0 < amount) (hsuf : suffix ≠ [])
    (hi : system[i]? = some (factor, suffix))
    (hearlier : ∀ fs ∈ system.take i, listEndsWith (pyStr amount ++ suffix) fs.2 = false) :
    get_raw_size (pyStr amount ++ suffix) system = .ok (some ((amount : Int) * factor)) := by
  induction system generalizing i with
  | nil => simp at hi
  | cons p rest ih =>
    cases i with
    | zero =>
      have hp : p = (factor, suffix) := by simpa using hi
      subst hp
      have hlen : ¬ (pyStr amount ++ suffix).length = suffix.length := by
        have hl : 0 < (pyStr amount).length :=
          List.length_pos.mpr (pyStr_ne_nil amount)
        simp only [List.length_append]
        omega
      have hs0 : ¬ suffix.length = 0 := by
        simpa [List.length_eq_zero] using hsuf
      have htake : (pyStr amount ++ suffix).take
          ((pyStr amount ++ suffix).length - suffix.length) = pyStr amount := by
        rw [List.length_append]
        have heq : (pyStr amount).length + suffix.length - suffix.length
            = (pyStr amount).length := by omega
        rw [heq, List.take_left]
      simp only [get_raw_size, listEndsWith_append_self, if_true, if_neg hlen,
        if_neg hs0, htake, pyInt_pyStr]
    | succ i' =>
      obtain ⟨f0, s0⟩ := p
      have h0 : listEndsWith (pyStr amount ++ suffix) s0 = false :=
        hearlier (f0, s0) (by simp [List.take_succ_cons])
      have hi' : rest[i']? = some (factor, suffix) := by simpa using hi
      have hearlier' : ∀ fs ∈ rest.take i',
          listEndsWith (pyStr amount ++ suffix) fs.2 = false := fun fs hfs =>
        hearlier fs (by simp [List.take_succ_cons, hfs])
      simp only [get_raw_size, h0, Bool.false_eq_true, if_false]
      exact ih i' (List.Pairwise.of_cons hord) hi' hearlier'

/-- C2 amended witness: `"8kB"` in the Postgres bytes system parses to
`8 * 1024`. -/
theorem C2_get_raw_size_amended_witness :
    get_raw_size (pyStr 8 ++ ['k', 'B']) POSTGRES_BYTES_SYSTEM =
      .ok (some ((8 : Int) * 1024)) := by
  have h := C2_get_raw_size_amended POSTGRES_BYTES_SYSTEM 1024 ['k', 'B'] 8 4
    (by decide) (by decide) (by decide) (by decide) (by decide)
  exact h

/-! ### Claim C7 -/

/-- C7: when a raw value parses neither as an integer nor as a float, the
Postgres integer preprocessing selects the fallback by the descriptor's unit
— `BYTES` uses the byte-magnitude table and `MILLISECONDS` the time-magnitude
table, with a `NotFound` (`none`) fallback result raised as the
Invalid-integer-format error naming the parameter and raw value — and any
other unit raises the Unknown-unit-type error; it never returns a default. -/
theorem C7_postgres_integer_fallback (v : String) (pinfo : ParamInfo)
    (hint : pyIntS v = none) (hfloat : pyFloatS v = none) :
    (pinfo.unit = .BYTES →
      postgres_preprocess_integer v pinfo =
        match get_raw_size v.data POSTGRES_BYTES_SYSTEM with
        | .ok (some n) => .ok n
        | .ok none => .error (.exception
            ("Invalid integer format for param " ++ pinfo.name ++ " (" ++ v ++ ")"))
        | .error e => .error e) ∧
    (pinfo.unit = .MILLISECONDS →
      postgres_preprocess_integer v pinfo =
        match get_raw_size v.data POSTGRES_TIME_SYSTEM with
        | .ok (some n) => .ok n
        | .ok none => .error (.exception
            ("Invalid integer format for param " ++ pinfo.name ++ " (" ++ v ++ ")"))
        | .error e => .error e) ∧
    (∀ tag, pinfo.unit = .other tag →
      postgres_preprocess_integer v pinfo =
        .error (.exception ("Unknown unit type: " ++ unitTypeMsg (.other tag)))) := by
  have hbase : base_preprocess_integer v = .error (.valueError v) := by
    rw [base_preprocess_integer, hint, hfloat]
  refine ⟨fun hb => ?_, fun hm => ?_, fun tag ht => ?_⟩
  · rw [postgres_preprocess_integer, hbase]
    simp only [hb, if_pos rfl]
    cases hg : get_raw_size v.data POSTGRES_BYTES_SYSTEM with
    | error e => rfl
    | ok o => cases o <;> rfl
  · rw [postgres_preprocess_integer, hbase]
    have hne : ¬ pinfo.unit = KnobUnitType.BYTES := by rw [hm]; decide
    simp only [hm, if_neg, if_pos rfl, reduceCtorEq, reduceIte]
    cases hg : get_raw_size v.data POSTGRES_TIME_SYSTEM with
    | error e => rfl
    | ok o => cases o <;> rfl
  · rw [postgres_preprocess_integer, hbase]
    simp only [ht, reduceCtorEq, reduceIte]

/-- C7 witness: `"8kB"` (no integer or float parse) with a `BYTES`-unit
descriptor resolves through the byte table to `8 * 1024 = 8192`. -/
theorem C7_postgres_integer_fallback_witness :
    postgres_preprocess_integer "8kB"
      ⟨"shared_buffers", .INTEGER, .BYTES, "", true⟩ = .ok 8192 := by
  have h := (C7_postgres_integer_fallback "8kB"
    ⟨"shared_buffers", .INTEGER, .BYTES, "", true⟩ (by decide) (by decide)).1 rfl
  rw [h]
  decide

/-! ### `combine_duplicate_rows`: order and shape lemmas -/

theorem getD_eq_get {α : Type} (l : List α) (d : α) (i : Nat) (h : i < l.length) :
    l.getD i d = l.get ⟨i, h⟩ := by
  rw [List.getD, List.get?_eq_get h]
  rfl

theorem rowLe_total : ∀ a b : List ℚ, rowLe a b = true ∨ rowLe b a = true
  | [], _ => Or.inl rfl
  | _ :: _, [] => Or.inr rfl
  | a :: as, b :: bs => by
    rcases lt_trichotomy a b with h | h | h
    · exact Or.inl (by simp [rowLe, h])
    · subst h
      rcases rowLe_total as bs with ih | ih
      · exact Or.inl (by simp [rowLe, lt_irrefl, ih])
      · exact Or.inr (by simp [rowLe, lt_irrefl, ih])
    · exact Or.inr (by simp [rowLe, h])

theorem rowLe_trans : ∀ a b c : List ℚ,
    rowLe a b = true → rowLe b c = true → rowLe a c = true
  | [], _, _, _, _ => rfl
  | _ :: _, [], _, hab, _ => by simp [rowLe] at hab
  | _ :: _, _ :: _, [], _, hbc => by simp [rowLe] at hbc
  | a :: as, b :: bs, c :: cs, hab, hbc => by
    by_cases h1 : a < b
    · by_cases h2 : b < c
      · simp [rowLe, lt_trans h1 h2]
      · by_cases h3 : c < b
        · simp [rowLe, h2, h3] at hbc
        · have hbceq : b = c := le_antisymm (not_lt.mp h3) (not_lt.mp h2)
          subst hbceq
          simp [rowLe, h1]
    · by_cases h1' : b < a
      · simp [rowLe, h1, h1'] at hab
      · have habeq : a = b := le_antisymm (not_lt.mp h1') (not_lt.mp h1)
        subst habeq
        simp only [rowLe, lt_irrefl, if_false] at hab
        by_cases h2 : a < c
        · simp [rowLe, h2]
        · by_cases h2' : c < a
          · simp [rowLe, h2, h2'] at hbc
          · have haceq : a = c := le_antisymm (not_lt.mp h2') (not_lt.mp h2)
            subst haceq
            simp only [rowLe, lt_irrefl, if_false] at hbc ⊢
            exact rowLe_trans as bs cs hab hbc

instance : IsTotal (List ℚ) rowLeP := ⟨rowLe_total⟩

instance : IsTrans (List ℚ) rowLeP := ⟨rowLe_trans⟩

theorem uniqueRows_length (X : List (List ℚ)) :
    (uniqueRows X).length = X.dedup.length :=
  List.length_insertionSort _ _

theorem uniqueRows_nodup (X : List (List ℚ)) : (uniqueRows X).Nodup :=
  (List.perm_insertionSort rowLeP X.dedup).nodup_iff.mpr (List.nodup_dedup X)

theorem uniqueRows_sorted (X : List (List ℚ)) : (uniqueRows X).Sorted rowLeP :=
  List.sorted_insertionSort rowLeP X.dedup

theorem mem_uniqueRows (X : List (List ℚ)) (r : List ℚ) :
    r ∈ uniqueRows X ↔ r ∈ X := by
  rw [uniqueRows, List.mem_insertionSort, List.mem_dedup]

theorem uniqueRows_length_of_nodup (X : List (List ℚ)) (h : X.Nodup) :
    (uniqueRows X).length = X.length := by
  rw [uniqueRows_length, List.dedup_eq_self.mpr h]

theorem uniqueRows_length_ne_of_not_nodup (X : List (List ℚ)) (h : ¬ X.Nodup) :
    (uniqueRows X).length ≠ X.length := by
  rw [uniqueRows_length]
  intro heq
  exact h (List.dedup_eq_self.mp ((List.dedup_sublist X).eq_of_length heq))

theorem mem_occIdxs (X : List (List ℚ)) (r : List ℚ) (i : Nat) :
    i ∈ occIdxs X r ↔ i < X.length ∧ X.getD i [] = r := by
  simp [occIdxs, List.mem_filter, List.mem_range]

theorem occIdxs_nodup (X : List (List ℚ)) (r : List ℚ) : (occIdxs X r).Nodup :=
  (List.nodup_range X.length).filter _

/-- Two or more occurrences of a row force `X` to have duplicate rows. -/
theorem not_nodup_of_two_occs (X : List (List ℚ)) (r : List ℚ)
    (h : 2 ≤ (occIdxs X r).length) : ¬ X.Nodup := by
  intro hnodup
  have hlen0 : 0 < (occIdxs X r).length := by omega
  have hlen1 : 1 < (occIdxs X r).length := by omega
  have h0 := List.get_mem (occIdxs X r) 0 hlen0
  have h1 := List.get_mem (occIdxs X r) 1 hlen1
  obtain ⟨hlt0, hr0⟩ := (mem_occIdxs X r _).mp h0
  obtain ⟨hlt1, hr1⟩ := (mem_occIdxs X r _).mp h1
  have hXeq : X.get ⟨(occIdxs X r).get ⟨0, hlen0⟩, hlt0⟩
      = X.get ⟨(occIdxs X r).get ⟨1, hlen1⟩, hlt1⟩ := by
    rw [← getD_eq_get X [] _ hlt0, ← getD_eq_get X [] _ hlt1, hr0, hr1]
  have hidx : (occIdxs X r).get ⟨0, hlen0⟩ = (occIdxs X r).get ⟨1, hlen1⟩ := by
    have hfin := List.nodup_iff_injective_get.mp hnodup hXeq
    simpa [Fin.ext_iff] using hfin
  have h01 : (0 : Nat) = 1 := by
    have hfin := List.nodup_iff_injective_get.mp (occIdxs_nodup X r)
      (show (occIdxs X r).get ⟨0, hlen0⟩ = (occIdxs X r).get ⟨1, hlen1⟩ from hidx)
    simpa [Fin.ext_iff] using hfin
  omega

/-! ### Claim C4 -/

/-- C4: when all parameter rows of `X` are pairwise distinct (exact equality),
`combine_duplicate_rows` returns the inputs unchanged. -/
theorem C4_combine_duplicate_rows_distinct (X y : List (List ℚ)) (rowlabels : List Int)
    (h : X.Nodup) :
    combine_duplicate_rows X y rowlabels = (X, y, Sum.inl rowlabels) := by
  simp only [combine_duplicate_rows, uniqueRows_length_of_nodup X h, if_pos rfl,
    eq_self_iff_true, if_true]

/-- C4 witness: a concrete duplicate-free input passes through unchanged. -/
theorem C4_combine_duplicate_rows_distinct_witness :
    ([[1, 2], [3, 4]] : List (List ℚ)).Nodup ∧
    combine_duplicate_rows [[1, 2], [3, 4]] [[10], [5]] [7, 8] =
      ([[1, 2], [3, 4]], [[10], [5]], Sum.inl [7, 8]) :=
  ⟨by decide, C4_combine_duplicate_rows_distinct _ _ _ (by decide)⟩

/-! ### Claim C9 -/

/-- C9: when at least one parameter row of `X` is duplicated, the returned
`X'` has pairwise-distinct rows in lexicographically ascending order, its
rows are exactly the distinct rows of `X` (one per distinct parameter row),
and `X'`, `y'`, `rowlabels'` all have the same number of rows. -/
theorem C9_combine_duplicate_rows_shape (X y : List (List ℚ)) (rowlabels : List Int)
    (h : ¬ X.Nodup) :
    (combine_duplicate_rows X y rowlabels).1.Sorted rowLeP ∧
    (combine_duplicate_rows X y rowlabels).1.Nodup ∧
    (∀ r, r ∈ (combine_duplicate_rows X y rowlabels).1 ↔ r ∈ X) ∧
    (combine_duplicate_rows X y rowlabels).1.length = X.dedup.length ∧
    (combine_duplicate_rows X y rowlabels).2.1.length
      = (combine_duplicate_rows X y rowlabels).1.length ∧
    ∃ L, (combine_duplicate_rows X y rowlabels).2.2 = Sum.inr L ∧
      L.length = (combine_duplicate_rows X y rowlabels).1.length := by
  have hne := uniqueRows_length_ne_of_not_nodup X h
  simp only [combine_duplicate_rows, if_neg hne]
  refine ⟨uniqueRows_sorted X, uniqueRows_nodup X, fun r => mem_uniqueRows X r,
    uniqueRows_length X, by simp, ?_⟩
  exact ⟨_, rfl, by simp⟩

/-- C9 witness: a concrete input with a duplicated row. -/
theorem C9_combine_duplicate_rows_shape_witness :
    ¬ ([[1, 2], [1, 2], [3, 4]] : List (List ℚ)).Nodup ∧
    ((combine_duplicate_rows [[1, 2], [1, 2], [3, 4]] [[10], [20], [5]] [1, 2, 3]).1.Sorted
        rowLeP ∧
      (combine_duplicate_rows [[1, 2], [1, 2], [3, 4]] [[10], [20], [5]] [1, 2, 3]).1.Nodup ∧
      (∀ r, r ∈ (combine_duplicate_rows [[1, 2], [1, 2], [3, 4]] [[10], [20], [5]] [1, 2, 3]).1
        ↔ r ∈ ([[1, 2], [1, 2], [3, 4]] : List (List ℚ))) ∧
      (combine_duplicate_rows [[1, 2], [1, 2], [3, 4]] [[10], [20], [5]] [1, 2, 3]).1.length
        = ([[1, 2], [1, 2], [3, 4]] : List (List ℚ)).dedup.length ∧
      (combine_duplicate_rows [[1, 2], [1, 2], [3, 4]] [[10], [20], [5]] [1, 2, 3]).2.1.length
        = (combine_duplicate_rows [[1, 2], [1, 2], [3, 4]] [[10], [20], [5]] [1, 2, 3]).1.length ∧
      ∃ L, (combine_duplicate_rows [[1, 2], [1, 2], [3, 4]] [[10], [20], [5]] [1, 2, 3]).2.2
          = Sum.inr L ∧
        L.length
          = (combine_duplicate_rows [[1, 2], [1, 2], [3, 4]] [[10], [20], [5]] [1, 2, 3]).1.length) :=
  ⟨by decide, C9_combine_duplicate_rows_shape _ _ _ (by decide)⟩

/-! ### Claim C3 -/

/-- C3: for every parameter row `r` of `X` occurring more than once, the
output contains a row position holding `r` whose `y` row is the column-wise
median of all of `r`'s occurrences' `y` rows and whose label is the tuple of
all the contributing occurrences' labels. -/
theorem C3_combine_duplicate_rows_median (X y : List (List ℚ)) (rowlabels : List Int)
    (r : List ℚ) (hdup : 2 ≤ (occIdxs X r).length) :
    ∃ i, (combine_duplicate_rows X y rowlabels).1.getD i [] = r ∧
      (combine_duplicate_rows X y rowlabels).2.1.getD i [] =
        medianCols ((occIdxs X r).map (fun j => y.getD j [])) (y.headD []).length ∧
      ∃ L, (combine_duplicate_rows X y rowlabels).2.2 = Sum.inr L ∧
        L.getD i [] = (occIdxs X r).map (fun j => rowlabels.getD j 0) := by
  have hnodup : ¬ X.Nodup := not_nodup_of_two_occs X r hdup
  have hne := uniqueRows_length_ne_of_not_nodup X hnodup
  have hmemX : r ∈ X := by
    have h0 := List.get_mem (occIdxs X r) 0 (by omega)
    obtain ⟨hlt0, hr0⟩ := (mem_occIdxs X r _).mp h0
    rw [← hr0, getD_eq_get X [] _ hlt0]
    exact List.get_mem X _ hlt0
  have hmemU : r ∈ uniqueRows X := (mem_uniqueRows X r).mpr hmemX
  obtain ⟨⟨i, hilt⟩, hig⟩ := List.mem_iff_get.mp hmemU
  have hocc1 : ¬ (occIdxs X r).length = 1 := by omega
  refine ⟨i, ?_, ?_, ?_⟩
  · simp only [combine_duplicate_rows, if_neg hne]
    rw [getD_eq_get _ _ _ hilt, hig]
  · simp only [combine_duplicate_rows, if_neg hne]
    have hilt' : i < ((uniqueRows X).map (fun rr =>
        if (occIdxs X rr).length = 1 then y.getD ((occIdxs X rr).headD 0) []
        else medianCols ((occIdxs X rr).map (fun j => y.getD j []))
          (y.headD []).length)).length := by
      simpa using hilt
    rw [getD_eq_get _ _ _ hilt', List.get_map, hig, if_neg hocc1]
  · simp only [combine_duplicate_rows, if_neg hne]
    refine ⟨_, rfl, ?_⟩
    have hilt' : i < ((uniqueRows X).map (fun rr =>
        if (occIdxs X rr).length = 1 then [rowlabels.getD ((occIdxs X rr).headD 0) 0]
        else (occIdxs X rr).map (fun j => rowlabels.getD j 0))).length := by
      simpa using hilt
    rw [getD_eq_get _ _ _ hilt', List.get_map, hig, if_neg hocc1]

/-- C3 witness: the spec's example `X = [[1,2],[1,2],[3,4]]`,
`y = [[10],[20],[5]]`, labels `[1,2,3]`, for the duplicated row `[1,2]`. -/
theorem C3_combine_duplicate_rows_median_witness :
    2 ≤ (occIdxs [[1, 2], [1, 2], [3, 4]] [1, 2]).length ∧
    ∃ i, (combine_duplicate_rows [[1, 2], [1, 2], [3, 4]] [[10], [20], [5]] [1, 2, 3]).1.getD
        i [] = ([1, 2] : List ℚ) ∧
      (combine_duplicate_rows [[1, 2], [1, 2], [3, 4]] [[10], [20], [5]] [1, 2, 3]).2.1.getD
          i [] =
        medianCols ((occIdxs [[1, 2], [1, 2], [3, 4]] [1, 2]).map
          (fun j => ([[10], [20], [5]] : List (List ℚ)).getD j []))
          (([[10], [20], [5]] : List (List ℚ)).headD []).length ∧
      ∃ L, (combine_duplicate_rows [[1, 2], [1, 2], [3, 4]] [[10], [20], [5]] [1, 2, 3]).2.2
          = Sum.inr L ∧
        L.getD i [] = (occIdxs [[1, 2], [1, 2], [3, 4]] [1, 2]).map
          (fun j => ([1, 2, 3] : List Int).getD j 0) :=
  ⟨by decide, C3_combine_duplicate_rows_median _ _ _ _ (by decide)⟩

/-! ### Dict-building loop lemmas -/

theorem except_bind_ok {ε α β : Type} (x : α) (g : α → Except ε β) :
    (Except.ok x >>= g) = g x := rfl

theorem except_bind_error {ε α β : Type} (e : ε) (g : α → Except ε β) :
    ((Except.error e : Except ε α) >>= g) = Except.error e := rfl

theorem pyLookup_isSome_iff {β : Type} (d : List (String × β)) (k : String) :
    (pyLookup d k).isSome ↔ k ∈ d.map Prod.fst := by
  rw [← not_iff_not]
  simp only [Option.not_isSome_iff_eq_none]
  exact pyLookup_eq_none_iff k d

/-- A loop writing `f (name m)` under each key `name m` makes the final dict
map every listed name to its `f`-value and leave other keys unchanged. -/
theorem foldlM_dictInsert_lookup {β γ : Type}
    (step : List (String × β) → γ → Except Err (List (String × β)))
    (name : γ → String) (f : String → β) :
    ∀ (l : List γ) (d : List (String × β)),
      (∀ m ∈ l, ∀ d', step d' m = .ok (dictInsert d' (name m) (f (name m)))) →
      ∃ out, l.foldlM step d = .ok out ∧
        ∀ s, pyLookup out s = if s ∈ l.map name then some (f s) else pyLookup d s
  | [], d, _ => ⟨d, rfl, by simp⟩
  | m :: rest, d, H => by
    have hstep := H m (List.mem_cons_self m rest) d
    obtain ⟨out, hout, hlook⟩ := foldlM_dictInsert_lookup step name f rest
      (dictInsert d (name m) (f (name m)))
      (fun q hq d' => H q (List.mem_cons_of_mem m hq) d')
    refine ⟨out, ?_, ?_⟩
    · rw [List.foldlM_cons, hstep, except_bind_ok, hout]
    · intro s
      rw [hlook s, pyLookup_dictInsert]
      by_cases hs : s ∈ rest.map name
      · simp [hs]
      · by_cases hsm : s = name m
        · simp [hs, hsm]
        · simp [hs, hsm]

/-- Any successful `paramsStep` writes exactly one binding, under the
descriptor's name. -/
theorem paramsStep_shape (c : DBMSClass) (tp : List (String × String)) :
    ∀ (pinfo : ParamInfo) (d out : List (String × ℚ)),
      paramsStep c tp d pinfo = .ok out → ∃ v, out = dictInsert d pinfo.name v := by
  intro pinfo d out h
  unfold paramsStep at h
  by_cases htun : pinfo.tunable = true
  · rw [if_pos htun] at h
    cases hlook : pyLookup tp pinfo.name with
    | none => rw [hlook] at h; simp at h
    | some pv =>
      rw [hlook] at h
      dsimp only at h
      cases hdisp : dispatchVar c pinfo.vartype pv pinfo with
      | error e => rw [hdisp] at h; simp at h
      | ok o =>
        rw [hdisp] at h
        cases o with
        | none => simp at h
        | some v =>
          simp only [Except.ok.injEq] at h
          exact ⟨v, h.symm⟩
  · rw [if_neg htun] at h
    simp at h

/-- The keys written by the `preprocess_dbms_params` loop are exactly the
catalog names, in catalog order, when the catalog names are distinct. -/
theorem foldlM_paramsStep_keys (c : DBMSClass) (tp : List (String × String)) :
    ∀ (l : List ParamInfo) (d out : List (String × ℚ)),
      (l.map (fun p => p.name)).Nodup →
      (∀ p ∈ l, pyLookup d p.name = none) →
      l.foldlM (paramsStep c tp) d = .ok out →
      out.map Prod.fst = d.map Prod.fst ++ l.map (fun p => p.name) := by
  intro l
  induction l with
  | nil =>
    intro d out _ _ h
    simp only [List.foldlM_nil] at h
    cases h
    simp
  | cons p rest ih =>
    intro d out hnodup hfresh h
    rw [List.foldlM_cons] at h
    cases hstep : paramsStep c tp d p with
    | error e =>
      rw [hstep, except_bind_error] at h
      exact absurd h (by simp)
    | ok d' =>
      rw [hstep, except_bind_ok] at h
      obtain ⟨v, rfl⟩ := paramsStep_shape c tp p d d' hstep
      have hfreshp : pyLookup d p.name = none := hfresh p (List.mem_cons_self p rest)
      have htail : (rest.map (fun p => p.name)).Nodup := (List.nodup_cons.mp hnodup).2
      have hpn : p.name ∉ rest.map (fun p => p.name) := (List.nodup_cons.mp hnodup).1
      have hfresh' : ∀ q ∈ rest, pyLookup (dictInsert d p.name v) q.name = none := by
        intro q hq
        rw [pyLookup_dictInsert]
        have hqn : q.name ≠ p.name := by
          intro heq
          exact hpn (heq ▸ List.mem_map_of_mem (fun p => p.name) hq)
        rw [if_neg hqn]
        exact hfresh q (List.mem_cons_of_mem p hq)
      have hrec := ih (dictInsert d p.name v) out htail hfresh' h
      rw [hrec, dictInsert_fst_of_none d p.name v hfreshp, List.map_cons,
        List.append_assoc, List.singleton_append]

/-- A prefix whose steps all succeed folds to a successful dict. -/
theorem foldlM_prefix_ok {β γ : Type}
    (step : List (String × β) → γ → Except Err (List (String × β))) :
    ∀ (pre : List γ) (d : List (String × β)),
      (∀ q ∈ pre, ∀ d0, ∃ d1, step d0 q = .ok d1) →
      ∃ dp, pre.foldlM step d = .ok dp
  | [], d, _ => ⟨d, rfl⟩
  | q :: rest, d, H => by
    obtain ⟨d1, h1⟩ := H q (List.mem_cons_self q rest) d
    obtain ⟨dp, hp⟩ := foldlM_prefix_ok step rest d1
      (fun q' hq' d0 => H q' (List.mem_cons_of_mem q hq') d0)
    exact ⟨dp, by rw [List.foldlM_cons, h1, except_bind_ok, hp]⟩

/-! ### Claim C5 -/

/-- C5: over a catalog of COUNTER descriptors and a raw mapping of the same
length containing each catalog name with an integer-parsable value,
`preprocess_dbms_metrics` maps each catalog name to the parsed integer
divided by the execution time; and whenever the raw metric count differs
from the catalog length it fails with the count-mismatch error. -/
theorem C5_preprocess_dbms_metrics (numeric_metric_catalog : List MetricInfo)
    (numeric_metrics : List (String × String)) (execution_time : ℚ)
    (hlen : numeric_metrics.length = numeric_metric_catalog.length)
    (ht : execution_time ≠ 0)
    (hcounter : ∀ m ∈ numeric_metric_catalog, m.metric_type = .COUNTER)
    (hparse : ∀ m ∈ numeric_metric_catalog, ∃ raw k,
      pyLookup numeric_metrics m.name = some raw ∧ pyIntS raw = some k) :
    (∃ out, preprocess_dbms_metrics base_preprocess_integer numeric_metrics
        numeric_metric_catalog [] execution_time = .ok out ∧
      ∀ m ∈ numeric_metric_catalog, ∀ raw k,
        pyLookup numeric_metrics m.name = some raw → pyIntS raw = some k →
        pyLookup out m.name = some ((k : ℚ) / execution_time)) ∧
    (∀ nm2 : List (String × String), nm2.length ≠ numeric_metric_catalog.length →
      preprocess_dbms_metrics base_preprocess_integer nm2 numeric_metric_catalog []
        execution_time = .error (.exception "The number of metrics should be equal!")) := by
  constructor
  · have hstep : ∀ m ∈ numeric_metric_catalog, ∀ d',
        metricsStep base_preprocess_integer numeric_metrics execution_time d' m =
          .ok (dictInsert d' m.name
            (((((pyLookup numeric_metrics m.name).bind pyIntS).getD 0 : Int) : ℚ)
              / execution_time)) := by
      intro m hm d'
      obtain ⟨raw, k, hlookm, hk⟩ := hparse m hm
      have hcm := hcounter m hm
      rw [metricsStep, hcm]
      simp only [reduceCtorEq, if_false, hlookm, hk, Option.some_bind, Option.getD_some]
      rw [base_preprocess_integer]
      unfold pyIntS at hk
      rw [pyIntS, hk]
      dsimp only
      rw [if_neg ht]
      simp
    obtain ⟨out, hout, hlook⟩ := foldlM_dictInsert_lookup
      (metricsStep base_preprocess_integer numeric_metrics execution_time)
      (fun m => m.name)
      (fun s => ((((pyLookup numeric_metrics s).bind pyIntS).getD 0 : Int) : ℚ)
        / execution_time)
      numeric_metric_catalog [] hstep
    have hc : ¬ numeric_metrics.length ≠ numeric_metric_catalog.length := by
      simp [hlen]
    refine ⟨out, ?_, ?_⟩
    · rw [preprocess_dbms_metrics, if_neg hc, hout]
      rfl
    · intro m hm raw k hlookm hk
      rw [hlook m.name, if_pos (List.mem_map_of_mem (fun m => m.name) hm)]
      simp [hlookm, hk]
  · intro nm2 h2
    rw [preprocess_dbms_metrics, if_pos h2]

/-- C5 witness: one COUNTER descriptor, raw value `"120"`, execution time
`60`. -/
theorem C5_preprocess_dbms_metrics_witness :
    (∃ out, preprocess_dbms_metrics base_preprocess_integer [("throughput", "120")]
        [⟨"throughput", MetricType.COUNTER, "0"⟩] [] 60 = .ok out ∧
      ∀ m ∈ [(⟨"throughput", MetricType.COUNTER, "0"⟩ : MetricInfo)], ∀ raw k,
        pyLookup [("throughput", "120")] m.name = some raw → pyIntS raw = some k →
        pyLookup out m.name = some ((k : ℚ) / 60)) ∧
    (∀ nm2 : List (String × String),
      nm2.length ≠ [(⟨"throughput", MetricType.COUNTER, "0"⟩ : MetricInfo)].length →
      preprocess_dbms_metrics base_preprocess_integer nm2
        [⟨"throughput", MetricType.COUNTER, "0"⟩] [] 60 =
        .error (.exception "The number of metrics should be equal!")) :=
  C5_preprocess_dbms_metrics [⟨"throughput", MetricType.COUNTER, "0"⟩]
    [("throughput", "120")] 60 (by decide) (by decide) (by decide)
    (fun m hm => by
      simp only [List.mem_singleton] at hm
      subst hm
      exact ⟨"120", 120, rfl, by decide⟩)

/-! ### Claim C6 -/

/-- C6: for a catalog with distinct names, any mapping
`preprocess_dbms_params` returns has key set exactly the catalog names
(hence exactly `len(catalog)` entries — it iterates the catalog, not the raw
input); and when the first not-all-successful step is a per-type parser
returning an absent (`None`) value for a tunable descriptor whose raw entry
exists, the call fails with the cannot-be-null error naming that parameter. -/
theorem C6_preprocess_dbms_params (c : DBMSClass)
    (tunable_params : List (String × String)) (catalog : List ParamInfo)
    (hnodup : (catalog.map (fun p => p.name)).Nodup) :
    (∀ out, preprocess_dbms_params c tunable_params catalog = .ok out →
      ((∀ s, (pyLookup out s).isSome ↔ s ∈ catalog.map (fun p => p.name)) ∧
        out.length = catalog.length)) ∧
    (∀ pre p suf, catalog = pre ++ p :: suf →
      (∀ q ∈ pre, ∀ d0, ∃ d1, paramsStep c tunable_params d0 q = .ok d1) →
      p.tunable = true →
      ∀ pv, pyLookup tunable_params p.name = some pv →
      dispatchVar c p.vartype pv p = .ok none →
      preprocess_dbms_params c tunable_params catalog =
        .error (.exception ("Param value for " ++ p.name ++ " cannot be null"))) := by
  constructor
  · intro out h
    have hkeys := foldlM_paramsStep_keys c tunable_params catalog [] out hnodup
      (fun p _ => rfl) h
    simp only [List.map_nil, List.nil_append] at hkeys
    constructor
    · intro s
      rw [pyLookup_isSome_iff, hkeys]
    · have hlen := congrArg List.length hkeys
      simpa using hlen
  · intro pre p suf hcat hpre htun pv hlookp hdisp
    subst hcat
    rw [preprocess_dbms_params, List.foldlM_append]
    obtain ⟨dp, hdp⟩ := foldlM_prefix_ok (paramsStep c tunable_params) pre [] hpre
    rw [hdp, except_bind_ok, List.foldlM_cons]
    have hstep : paramsStep c tunable_params dp p =
        .error (.exception ("Param value for " ++ p.name ++ " cannot be null")) := by
      rw [paramsStep, if_pos htun, hlookp]
      dsimp only
      rw [hdisp]
    rw [hstep, except_bind_error]

/-- C6 witness: the Postgres adapter over a one-descriptor BOOL catalog with
a matching raw value. -/
theorem C6_preprocess_dbms_params_witness :
    (∀ out, preprocess_dbms_params postgresClass [("autovacuum", "on")]
        [⟨"autovacuum", VarType.BOOL, KnobUnitType.other 0, "", true⟩] = .ok out →
      ((∀ s, (pyLookup out s).isSome ↔
          s ∈ [(⟨"autovacuum", VarType.BOOL, KnobUnitType.other 0, "", true⟩ :
            ParamInfo)].map (fun p => p.name)) ∧
        out.length = 1)) ∧
    (∀ pre p suf,
      [(⟨"autovacuum", VarType.BOOL, KnobUnitType.other 0, "", true⟩ : ParamInfo)]
        = pre ++ p :: suf →
      (∀ q ∈ pre, ∀ d0, ∃ d1, paramsStep postgresClass [("autovacuum", "on")] d0 q = .ok d1) →
      p.tunable = true →
      ∀ pv, pyLookup [("autovacuum", "on")] p.name = some pv →
      dispatchVar postgresClass p.vartype pv p = .ok none →
      preprocess_dbms_params postgresClass [("autovacuum", "on")]
        [⟨"autovacuum", VarType.BOOL, KnobUnitType.other 0, "", true⟩] =
        .error (.exception ("Param value for " ++ p.name ++ " cannot be null"))) :=
  C6_preprocess_dbms_params postgresClass [("autovacuum", "on")]
    [⟨"autovacuum", VarType.BOOL, KnobUnitType.other 0, "", true⟩] (by decide)

/-! ### Claim C10 -/

/-- C10: external metrics are merged in after the catalog-driven counter
rates, so an external entry whose key equals a catalog metric name silently
overwrites the computed per-time-unit rate in the returned mapping. -/
theorem C10_external_overwrites (ppInt : String → Except Err Int)
    (numeric_metrics : List (String × String)) (numeric_metric_catalog : List MetricInfo)
    (external_metrics : List (String × ℚ)) (execution_time : ℚ)
    (out : List (String × ℚ)) (k : String) (v : ℚ)
    (hok : preprocess_dbms_metrics ppInt numeric_metrics numeric_metric_catalog
      external_metrics execution_time = .ok out)
    (hkcat : k ∈ numeric_metric_catalog.map (fun m => m.name))
    (hv : lookupLast external_metrics k = some v) :
    pyLookup out k = some v := by
  rw [preprocess_dbms_metrics] at hok
  by_cases hc : numeric_metrics.length ≠ numeric_metric_catalog.length
  · rw [if_pos hc] at hok
    simp at hok
  · rw [if_neg hc] at hok
    cases hmd : numeric_metric_catalog.foldlM
        (metricsStep ppInt numeric_metrics execution_time) [] with
    | error e =>
      rw [hmd] at hok
      simp at hok
    | ok md =>
      rw [hmd] at hok
      dsimp only at hok
      have hout : out = dictUpdate md (pyDictOfList external_metrics) := by
        injection hok with h
        exact h.symm
      have hnodup' : ((pyDictOfList external_metrics).map Prod.fst).Nodup :=
        nodup_fst_dictUpdate external_metrics [] (by simp)
      have h1 : lookupLast (pyDictOfList external_metrics) k = some v := by
        rw [lookupLast_eq_pyLookup_of_nodup k _ hnodup', pyDictOfList,
          pyLookup_dictUpdate, hv]
      rw [hout, pyLookup_dictUpdate, h1]

/-- C10 witness: the computed rate `120/60` for `"throughput"` is replaced by
the external value `7`. -/
theorem C10_external_overwrites_witness :
    pyLookup [("throughput", (7 : ℚ))] "throughput" = some 7 :=
  C10_external_overwrites base_preprocess_integer [("throughput", "120")]
    [⟨"throughput", MetricType.COUNTER, "0"⟩] [("throughput", 7)] 60
    [("throughput", 7)] "throughput" 7 rfl (by decide) rfl

/-! ### Claim C8 -/

/-- The combination pass of `parse_dbms_metrics` preserves keys and maps each
first binding through `combineStep`. -/
theorem mapM_combineStep_lookup (omap : List (String × MetricInfo)) :
    ∀ (l out : List (String × PyObj)),
      l.mapM (fun p =>
        (match combineStep omap p.1 p.2 with
         | .error e => .error e
         | .ok v => .ok (p.1, v) : Except Err (String × PyObj))) = .ok out →
      ∀ k mv, pyLookup l k = some mv →
        ∃ v', combineStep omap k mv = .ok v' ∧ pyLookup out k = some v'
  | [], out, _, k, mv, hk => by simp [pyLookup] at hk
  | (a, b) :: rest, out, h, k, mv, hk => by
    rw [List.mapM_cons] at h
    cases hcs : combineStep omap a b with
    | error e =>
      rw [hcs] at h
      simp only [except_bind_error] at h
      exact absurd h (by simp)
    | ok v =>
      rw [hcs] at h
      dsimp only at h
      rw [except_bind_ok] at h
      cases hrest : rest.mapM (fun p =>
          (match combineStep omap p.1 p.2 with
           | .error e => .error e
           | .ok v => .ok (p.1, v) : Except Err (String × PyObj))) with
      | error e =>
        rw [hrest, except_bind_error] at h
        exact absurd h (by simp)
      | ok outrest =>
        rw [hrest, except_bind_ok] at h
        have hout : out = (a, v) :: outrest := by
          have : (Except.ok ((a, v) :: outrest) : Except Err (List (String × PyObj)))
              = .ok out := h
          injection this with h'
          exact h'.symm
        subst hout
        by_cases hka : k = a
        · subst hka
          have hmv : b = mv := by simpa [pyLookup] using hk
          subst hmv
          exact ⟨v, hcs, by simp [pyLookup]⟩
        · have hk' : pyLookup rest k = some mv := by
            simpa [pyLookup, hka] using hk
          obtain ⟨v', hv', hlook'⟩ := mapM_combineStep_lookup omap rest outrest hrest k mv hk'
          exact ⟨v', hv', by simpa [pyLookup, hka] using hlook'⟩

/-- C8: after flattening and reconciling, each validated key of metric type
INFO or with a single collected value maps to its sole value verbatim; each
COUNTER key with several values maps to the stringified sum of its non-null
integer-parsed values (integer `0` when all are null); and under a successful
parse no other metric type occurs with several values (it would raise). -/
theorem C8_postgres_parse_dbms_metrics
    (metrics : List (String × List (List (String × Option String))))
    (official_metrics : List MetricInfo)
    (out : List (String × PyObj)) (diffs : List (VDiff PyObj))
    (vm : List (String × PyObj)) (diffs0 : List (VDiff PyObj))
    (k : String) (mv : PyObj) (metric : MetricInfo)
    (hok : postgres_parse_dbms_metrics metrics official_metrics = .ok (out, diffs))
    (hvm : extract_valid_keys ((collectScoped metrics).map (fun p => (p.1, PyObj.plist p.2)))
        (official_metrics.map (fun m => (m.name, PyObj.pstr m.default)))
        (some (PyObj.pstr "0")) = .ok (vm, diffs0))
    (hk : pyLookup vm k = some mv)
    (hm : pyLookup (official_metrics.foldl (fun d m => dictInsert d m.name m) []) k
      = some metric) :
    (metric.metric_type = .INFO ∨ pyLen mv = some 1 →
      ∃ v0, pyIndex0 mv = .ok v0 ∧ pyLookup out k = some v0) ∧
    (metric.metric_type = .COUNTER → ¬ pyLen mv = some 1 →
      ∀ l, mv = PyObj.plist l →
      ∃ ints, (l.filterMap id).mapM pyIntS = some ints ∧
        pyLookup out k = some (if ints.length = 0 then PyObj.pint 0
          else PyObj.pstr (toString ints.sum))) ∧
    (metric.metric_type ≠ .INFO → metric.metric_type ≠ .COUNTER →
      pyLen mv = some 1) := by
  rw [postgres_parse_dbms_metrics] at hok
  rw [hvm] at hok
  dsimp only at hok
  cases hcomb : vm.mapM (fun p =>
      (match combineStep (official_metrics.foldl (fun d m => dictInsert d m.name m) []) p.1 p.2 with
       | .error e => .error e
       | .ok v => .ok (p.1, v) : Except Err (String × PyObj))) with
  | error e =>
    rw [hcomb] at hok
    exact absurd hok (by simp)
  | ok combined =>
    rw [hcomb] at hok
    dsimp only at hok
    have hco : combined = out := by
      injection hok with h
      exact congrArg Prod.fst h
    subst hco
    obtain ⟨v', hcs, hlookout⟩ :=
      mapM_combineStep_lookup _ vm combined hcomb k mv hk
    rw [combineStep, hm] at hcs
    dsimp only at hcs
    refine ⟨?_, ?_, ?_⟩
    · intro h1
      by_cases hinfo : metric.metric_type = .INFO
      · rw [if_pos hinfo] at hcs
        exact ⟨v', hcs, hlookout⟩
      · rcases h1 with h1 | h1
        · exact absurd h1 hinfo
        · rw [if_neg hinfo, h1] at hcs
          dsimp only at hcs
          rw [if_pos rfl] at hcs
          exact ⟨v', hcs, hlookout⟩
    · intro hcm hnot1 l hl
      subst hl
      have hinfo : ¬ metric.metric_type = .INFO := by
        rw [hcm]
        decide
      rw [if_neg hinfo] at hcs
      have hlen : pyLen (PyObj.plist l) = some l.length := rfl
      rw [hlen] at hcs
      dsimp only at hcs
      have hl1 : ¬ l.length = 1 := by
        intro hh
        exact hnot1 (by rw [hlen, hh])
      rw [if_neg hl1, if_pos hcm] at hcs
      dsimp only [pyIterOptStr] at hcs
      cases hints : (l.filterMap id).mapM pyIntS with
      | none =>
        rw [hints] at hcs
        exact absurd hcs (by simp)
      | some ints =>
        rw [hints] at hcs
        dsimp only at hcs
        refine ⟨ints, rfl, ?_⟩
        by_cases hz : ints.length = 0
        · rw [if_pos hz] at hcs ⊢
          injection hcs with h'
          rw [← h'] at hlookout
          exact hlookout
        · rw [if_neg hz] at hcs ⊢
          injection hcs with h'
          rw [← h'] at hlookout
          exact hlookout
    · intro hni hnc
      by_cases h1 : pyLen mv = some 1
      · exact h1
      · exfalso
        rw [if_neg hni] at hcs
        cases hlen : pyLen mv with
        | none =>
          rw [hlen] at hcs
          exact absurd hcs (by simp)
        | some n =>
          rw [hlen] at hcs
          dsimp only at hcs
          have hn1 : ¬ n = 1 := fun hh => h1 (by rw [hlen, hh])
          rw [if_neg hn1, if_neg hnc] at hcs
          exact absurd hcs (by simp)

/-- C8 witness: two scope instances of metric `x` under view `pg_stat` with
raw values `"3"` and `"4"` combine, for the COUNTER descriptor `pg_stat.x`,
to the stringified sum `"7"`. -/
theorem C8_postgres_parse_dbms_metrics_witness :
    ((⟨"pg_stat.x", MetricType.COUNTER, "0"⟩ : MetricInfo).metric_type = .INFO ∨
        pyLen (PyObj.plist [some "3", some "4"]) = some 1 →
      ∃ v0, pyIndex0 (PyObj.plist [some "3", some "4"]) = .ok v0 ∧
        pyLookup [("pg_stat.x", PyObj.pstr "7")] "pg_stat.x" = some v0) ∧
    ((⟨"pg_stat.x", MetricType.COUNTER, "0"⟩ : MetricInfo).metric_type = .COUNTER →
      ¬ pyLen (PyObj.plist [some "3", some "4"]) = some 1 →
      ∀ l, PyObj.plist [some "3", some "4"] = PyObj.plist l →
      ∃ ints, (l.filterMap id).mapM pyIntS = some ints ∧
        pyLookup [("pg_stat.x", PyObj.pstr "7")] "pg_stat.x" =
          some (if ints.length = 0 then PyObj.pint 0
            else PyObj.pstr (toString ints.sum))) ∧
    ((⟨"pg_stat.x", MetricType.COUNTER, "0"⟩ : MetricInfo).metric_type ≠ .INFO →
      (⟨"pg_stat.x", MetricType.COUNTER, "0"⟩ : MetricInfo).metric_type ≠ .COUNTER →
      pyLen (PyObj.plist [some "3", some "4"]) = some 1) :=
  C8_postgres_parse_dbms_metrics
    [("pg_stat", [[("x", some "3")], [("x", some "4")]])]
    [⟨"pg_stat.x", MetricType.COUNTER, "0"⟩]
    [("pg_stat.x", PyObj.pstr "7")] []
    [("pg_stat.x", PyObj.plist [some "3", some "4"])] []
    "pg_stat.x" (PyObj.plist [some "3", some "4"])
    ⟨"pg_stat.x", MetricType.COUNTER, "0"⟩
    (by decide) (by decide) (by decide) (by decide)
